import Mathlib

/-! Text fitting and placement of `cmd/readfile/main.go`.

A shallow embedding of `LoadFont`, `GetFirstNonOverflowingText` and `Run`.

Modelling conventions.
* `float64` quantities are exact rationals (`ℚ`): the comparisons and the
  arithmetic of the source are taken without rounding, NaN or infinities.
* Go `int` is `Int`; the only integer arithmetic is `sizePt--` above 10.
* A Go pointer that may be `nil` is an `Option`; `nil` is `none`.
* A `panic` is an `Except.error`; every operation returns the outcome
  together with the world it leaves behind, so that what happened before a
  panic stays observable.
* The graphics library is not part of the sources.  Its constructors
  (`Font.Face`, `NewTextBox`) are free: a value records the arguments it was
  built from.  Its measurements and the file system are the fields of `Lib`.
-/

namespace ImageGen

/-- Go `color.RGBA`: four 8-bit channels. -/
structure RGBA where
  R : Nat
  G : Nat
  B : Nat
  A : Nat
deriving DecidableEq, Repr

/-- Modelled from the spec: `canvas.TextAlign` of the graphics library, an
integer enumeration (horizontal alignment Left, Center or Right; the source
also uses `Top`).  Any integer is a value of the type. -/
structure TextAlign where
  code : Int
deriving DecidableEq, Repr

namespace canvas

/-! The constants of the graphics library that the source names.  Of the
alignments only their being distinct is used. -/

/-- Modelled from the spec: the alignment `canvas.Left`. -/
def Left : TextAlign := ⟨0⟩
/-- Modelled from the spec: the alignment `canvas.Right`. -/
def Right : TextAlign := ⟨1⟩
/-- Modelled from the spec: the alignment `canvas.Center`. -/
def Center : TextAlign := ⟨2⟩
/-- Modelled from the spec: the alignment `canvas.Top`. -/
def Top : TextAlign := ⟨3⟩
/-- Modelled from the spec: the alignment `canvas.Bottom`. -/
def Bottom : TextAlign := ⟨4⟩
/-- Modelled from the spec: the alignment `canvas.Justify`. -/
def Justify : TextAlign := ⟨5⟩

/-- Modelled from the spec: the colour `canvas.Black`. -/
def Black : RGBA := ⟨0, 0, 0, 255⟩
/-- Modelled from the spec: the colour `canvas.Lightblue`. -/
def Lightblue : RGBA := ⟨173, 216, 230, 255⟩

end canvas

/-- Modelled from the spec: the font handle `*canvas.Font` of the graphics
library, an opaque reference to a loaded font; only its identity matters. -/
structure Font where
  id : Nat
deriving DecidableEq, Repr

/-- Modelled from the spec: the font face of the graphics library, the value of
`font.Face(float64(sizePt), fillColor)`, recorded by its arguments. -/
structure FontFace where
  font : Font
  sizePt : Int
  fillColor : RGBA
deriving DecidableEq, Repr

/-- Modelled from the spec: the text box `*canvas.Text` of the graphics library,
the value of `canvas.NewTextBox(face, text, width, 0, halign, canvas.Left, .0, .0)`,
recorded by the arguments that vary. -/
structure Text where
  face : FontFace
  text : String
  width : ℚ
  halign : TextAlign
deriving DecidableEq

/-- The calls made on the drawing context `ctx`. -/
inductive DrawOp where
  | DrawImage (x y : ℚ) (resource : String)
  | SetStrokeWidth (w : ℚ)
  | SetFillColor (c : RGBA)
  | MoveTo (x y : ℚ)
  | LineTo (x y : ℚ)
  | Close
  | Stroke
  | DrawText (x y : ℚ) (textBox : Text)
deriving DecidableEq

/-- The panics of the program. -/
inductive Err where
  /-- Line 33: `panic(fontError)`. -/
  | fontLoad (path : String)
  /-- Line 64: "cannot write in font size less than 10pt". -/
  | invalidFontSize (maxFontSize : Int)
  /-- Line 128: `panic(fileReadError)`. -/
  | fileRead (path : String)
  /-- Line 135: `panic(pngImageError)`. -/
  | pngImage (path : String)
  /-- A method of `*canvas.Text` that reads the box, called on `nil`. -/
  | nilDereference
  /-- Line 200: `panic(writerError)`. -/
  | write (path : String)
deriving DecidableEq, Repr

/-- Modelled from the spec: what the program asks of the graphics library and of
the file system, none of which is in the sources.  Each field is an arbitrary
function: a theorem for every `Lib` holds whatever the library computes. -/
structure Lib where
  /-- Result of `canvas.LoadFontFile(path, canvas.FontRegular)`; `none` is an error. -/
  LoadFontFile : String → Option Font
  /-- Value of `t.OutlineBounds().H`. -/
  OutlineBoundsH : Text → ℚ
  /-- Value of `t.Bounds().W`. -/
  BoundsW : Text → ℚ
  /-- Value of `t.Bounds().H`. -/
  BoundsH : Text → ℚ
  /-- Whether `os.Open(path)` succeeds. -/
  Open : String → Bool
  /-- Result of `canvas.NewPNGImage`: `pngImage.Image.Bounds().Max`, or `none` for an error. -/
  NewPNGImage : String → Option (Int × Int)
  /-- Whether `c.WriteFile(outPath, writer)` succeeds on the given drawing. -/
  WriteFile : String → List DrawOp → Bool

/-- The mutable state outside the functions, with a record of the external calls. -/
structure World where
  /-- The package variable `loadedFonts`. -/
  loadedFonts : List (String × Font)
  /-- The paths passed to `canvas.LoadFontFile`, oldest first. -/
  fontReads : List String
  /-- The text boxes built by `canvas.NewTextBox`, oldest first. -/
  layouts : List Text
  /-- Standard output. -/
  stdout : List String
  /-- The calls of `c.WriteFile`: path and drawing, oldest first. -/
  writeCalls : List (String × List DrawOp)

/-- The world when the process starts: `loadedFonts = make(map[string]*canvas.Font)`. -/
def World.init : World := ⟨[], [], [], [], []⟩

def mmPerPixel : ℚ := 0.2645833333

def defaultFontPath : String := "resources/fonts/nunito-v23-latin-regular.ttf"

/-- Lines 19-22: the path that is loaded. -/
def LoadFont.fontPath (path : List String) : String :=
  match path with
  | [] => defaultFontPath
  | p :: _ => p

/-- Lines 23-25: the message printed when more than one path is given. -/
def LoadFont.warn (path : List String) (w : World) : World :=
  if path.length > 1 then
    { w with stdout := w.stdout ++
        ["cannot load multiple fonts at once, loading only " ++ LoadFont.fontPath path ++
          ", ignoring: " ++ ", ".intercalate (path.drop 1)] }
  else w

/-- Lines 18-39. -/
def LoadFont (lib : Lib) (path : List String) (w : World) : Except Err Font × World :=
  let fontPath := LoadFont.fontPath path
  let w1 := LoadFont.warn path w
  match w1.loadedFonts.lookup fontPath with
  | some alreadyLoaded => (.ok alreadyLoaded, w1)
  | none =>
    let w2 : World := { w1 with fontReads := w1.fontReads ++ [fontPath] }
    match lib.LoadFontFile fontPath with
    | none => (.error (.fontLoad fontPath), w2)
    | some font => (.ok font, { w2 with loadedFonts := (fontPath, font) :: w2.loadedFonts })

/-- An element of `opts ...interface{}`, by dynamic type. -/
inductive Opt where
  | rgba (c : RGBA)
  | textAlign (a : TextAlign)
  | int (n : Int)
  | other
deriving DecidableEq

/-- The locals `fillColor`, `halign`, `maxFontSize` of `GetFirstNonOverflowingText`. -/
structure Style where
  fillColor : RGBA
  halign : TextAlign
  maxFontSize : Int
deriving DecidableEq

/-- Lines 52-59: the type switch. -/
def applyOpt (s : Style) (opt : Opt) : Style :=
  match opt with
  | .rgba casted => { s with fillColor := casted }
  | .textAlign casted => { s with halign := casted }
  | .int casted => { s with maxFontSize := casted }
  | .other => s

/-- Lines 47-61: the defaults, then `for _, opt := range opts`. -/
def readOpts (opts : List Opt) : Style :=
  opts.foldl applyOpt ⟨canvas.Black, canvas.Top, 70⟩

/-- Lines 68-69: the text box laid out at `sizePt` with the loaded `font`. -/
def layoutAt (font : Font) (fillColor : RGBA) (text : String) (width : ℚ) (halign : TextAlign)
    (sizePt : Int) : Text :=
  let face : FontFace := ⟨font, sizePt, fillColor⟩
  ⟨face, text, width, halign⟩

/-- Lines 67-74: the loop `for sizePt := ...; sizePt >= 10; sizePt--` from the
current `sizePt`, and the `return` after it.  The `canvasText` of line 69 is
declared with `:=` inside the loop body, so the function result `canvasText`
of line 46 is never assigned: line 74 returns `nil`. -/
def sizeLoop (lib : Lib) (text : String) (width maxHeight : ℚ) (fillColor : RGBA)
    (halign : TextAlign) (sizePt : Int) (w : World) : Except Err (Option Text) × World :=
  if 10 ≤ sizePt then
    match LoadFont lib [] w with
    | (.error e, w1) => (.error e, w1)
    | (.ok font, w1) =>
      let canvasText : Text := layoutAt font fillColor text width halign sizePt
      let w2 : World := { w1 with layouts := w1.layouts ++ [canvasText] }
      if lib.OutlineBoundsH canvasText < maxHeight then
        (.ok (some canvasText), w2)
      else
        sizeLoop lib text width maxHeight fillColor halign (sizePt - 1) w2
  else
    (.ok none, w)
termination_by (sizePt - 9).toNat
decreasing_by omega

/-- Lines 41-75. -/
def GetFirstNonOverflowingText (lib : Lib) (text : String) (width maxHeight : ℚ)
    (opts : List Opt) (w : World) : Except Err (Option Text) × World :=
  let s := readOpts opts
  if s.maxFontSize < 10 then
    (.error (.invalidFontSize s.maxFontSize), w)
  else
    sizeLoop lib text width maxHeight s.fillColor s.halign s.maxFontSize w

structure TextConfig where
  VariableName : String
  RelativeX : ℚ
  RelativeY : ℚ
  FontSize : Int
  MaxWidth : ℚ
  MaxHeight : ℚ
  TextAlign : TextAlign
  Color : RGBA
deriving DecidableEq

structure ImageTemplate where
  ResourcePath : String
  Config : List TextConfig

/-- Go `map[string]string`, read only: the lookup `value, ok := m[key]`. -/
abbrev M := String → Option String

namespace Run

/-- Lines 150-153. -/
def text (variableValues : M) (config : TextConfig) : String :=
  match variableValues config.VariableName with
  | some value => value
  | none => config.VariableName

/-- Lines 157-160: `maxWidth` before the switch. -/
def maxWidth (config : TextConfig) (boundsW : ℚ) : ℚ :=
  if boundsW > config.MaxWidth then boundsW else config.MaxWidth

/-- Lines 155-178: the origin `(x, y)`, from `c.W`, `c.H` and `textBox.Bounds()`. -/
def origin (cW cH : ℚ) (config : TextConfig) (boundsW boundsH : ℚ) : ℚ × ℚ :=
  let maxWidth := maxWidth config boundsW
  if config.TextAlign = canvas.Center then
    (cW * config.RelativeX - maxWidth * 0.5, cH * config.RelativeY + boundsH * 0.5)
  else if config.TextAlign = canvas.Right then
    (cW * config.RelativeX - maxWidth, cH * config.RelativeY + boundsH * 0.5)
  else
    (cW * config.RelativeX, cH * config.RelativeY + boundsH * 0.5)

/-- Lines 180-194: the outline and the text, drawn at `(x, y)`. -/
def draw (lib : Lib) (x y : ℚ) (textBox : Text) : List DrawOp :=
  [ .SetStrokeWidth 2,
    .SetFillColor canvas.Lightblue,
    .MoveTo x y,
    .LineTo (x + lib.BoundsW textBox) y,
    .LineTo (x + lib.BoundsW textBox) (y - lib.BoundsH textBox),
    .LineTo x (y - lib.BoundsH textBox),
    .LineTo x y,
    .Close,
    .Stroke,
    .DrawText x y textBox ]

/-- Lines 155-194, after the fitter has returned `fitted`.  When the fitter
returned `nil`, `textBox.Bounds()` of line 158 reads the box through a nil
pointer: a run-time panic. -/
def place (lib : Lib) (cW cH : ℚ) (config : TextConfig) (ctx : List DrawOp)
    (fitted : Except Err (Option Text) × World) : Except Err (List DrawOp) × World :=
  match fitted with
  | (.error e, w1) => (.error e, w1)
  | (.ok none, w1) => (.error .nilDereference, w1)
  | (.ok (some textBox), w1) =>
    let o := origin cW cH config (lib.BoundsW textBox) (lib.BoundsH textBox)
    (.ok (ctx ++ draw lib o.1 o.2 textBox), w1)

/-- Lines 150-194: one iteration of `for _, config := range textConfigs`. -/
def field (lib : Lib) (cW cH : ℚ) (variableValues : M) (config : TextConfig)
    (ctx : List DrawOp) (w : World) : Except Err (List DrawOp) × World :=
  place lib cW cH config ctx
    (GetFirstNonOverflowingText lib (text variableValues config) config.MaxWidth
      config.MaxHeight [.int config.FontSize, .rgba config.Color, .textAlign config.TextAlign] w)

/-- Lines 149-195: the loop over the fields; a panic ends it. -/
def fields (lib : Lib) (cW cH : ℚ) (variableValues : M) :
    List TextConfig → List DrawOp → World → Except Err (List DrawOp) × World
  | [], ctx, w => (.ok ctx, w)
  | config :: rest, ctx, w =>
    match field lib cW cH variableValues config ctx w with
    | (.error e, w1) => (.error e, w1)
    | (.ok ctx1, w1) => fields lib cW cH variableValues rest ctx1 w1

end Run

/-- Lines 121-202. -/
def Run (lib : Lib) (template : ImageTemplate) (outPath : String) (variableValues : M)
    (w : World) : Except Err Unit × World :=
  if lib.Open template.ResourcePath then
    match lib.NewPNGImage template.ResourcePath with
    | none => (.error (.pngImage template.ResourcePath), w)
    | some pngSize =>
      let cW : ℚ := (pngSize.1 : ℚ) * mmPerPixel
      let cH : ℚ := (pngSize.2 : ℚ) * mmPerPixel
      match Run.fields lib cW cH variableValues template.Config
          [.DrawImage 0 0 template.ResourcePath] w with
      | (.error e, w1) => (.error e, w1)
      | (.ok ctx, w1) =>
        let w2 : World := { w1 with writeCalls := w1.writeCalls ++ [(outPath, ctx)] }
        if lib.WriteFile outPath ctx then (.ok (), w2) else (.error (.write outPath), w2)
  else
    (.error (.fileRead template.ResourcePath), w)

/-- The spec's "effective maximum font size": the last `int` option supplied,
or 70 when none is supplied. -/
def effectiveMaxFontSize (opts : List Opt) : Int :=
  match (opts.filterMap fun o => match o with
    | .int n => some n
    | _ => none).getLast? with
  | some n => n
  | none => 70

/-- A library for concrete runs: every font file loads, the outline of a box
is as high as its point size, and every box measures 200 by 40. -/
def sampleLib : Lib where
  LoadFontFile := fun _ => some ⟨1⟩
  OutlineBoundsH := fun t => (t.face.sizePt : ℚ)
  BoundsW := fun _ => 200
  BoundsH := fun _ => 40
  Open := fun _ => true
  NewPNGImage := fun _ => some (400, 300)
  WriteFile := fun _ _ => true

/-- A field for concrete runs: placeholder `"{total}"`, anchor (0.5, 0.5),
maximum size 10, box 128 by 18. -/
def sampleConfig (align : TextAlign) : TextConfig :=
  ⟨"{total}", 0.5, 0.5, 10, 128, 18, align, canvas.Black⟩

/-- The box that `sampleLib` lays out for `sampleConfig align` when the
placeholder has no value. -/
def sampleBox (align : TextAlign) : Text :=
  layoutAt ⟨1⟩ canvas.Black "{total}" 128 align 10

/-- A template for concrete runs: a first field that fits, then a field whose
maximum font size is 9. -/
def sampleTemplate : ImageTemplate :=
  ⟨"resources/images/background.png",
    [sampleConfig canvas.Center, { sampleConfig canvas.Right with FontSize := 9 }]⟩

/-- Successive calls of `LoadFont`, each on the world the previous one left; a
panic ends the process (`none`). -/
def LoadFont.calls (lib : Lib) : List (List String) → World → Option World
  | [], w => some w
  | path :: rest, w =>
    match LoadFont lib path w with
    | (.ok _, w1) => LoadFont.calls lib rest w1
    | (.error _, _) => none

/-! ## The font cache -/

theorem warn_loadedFonts (path : List String) (w : World) :
    (LoadFont.warn path w).loadedFonts = w.loadedFonts := by
  unfold LoadFont.warn; split <;> rfl

theorem warn_fontReads (path : List String) (w : World) :
    (LoadFont.warn path w).fontReads = w.fontReads := by
  unfold LoadFont.warn; split <;> rfl

theorem warn_layouts (path : List String) (w : World) :
    (LoadFont.warn path w).layouts = w.layouts := by
  unfold LoadFont.warn; split <;> rfl

theorem warn_writeCalls (path : List String) (w : World) :
    (LoadFont.warn path w).writeCalls = w.writeCalls := by
  unfold LoadFont.warn; split <;> rfl

theorem warn_nil (w : World) : LoadFont.warn [] w = w := by
  simp [LoadFont.warn]

/-- The three ways a call of `LoadFont` ends. -/
theorem LoadFont_cases (lib : Lib) (path : List String) (w : World) :
    ((LoadFont.warn path w).loadedFonts.lookup (LoadFont.fontPath path) = none ∨
      ∃ f, (LoadFont.warn path w).loadedFonts.lookup (LoadFont.fontPath path) = some f ∧
        LoadFont lib path w = (.ok f, LoadFont.warn path w)) ∧
    ((LoadFont.warn path w).loadedFonts.lookup (LoadFont.fontPath path) = none →
      (lib.LoadFontFile (LoadFont.fontPath path) = none ∧
        LoadFont lib path w = (.error (.fontLoad (LoadFont.fontPath path)),
          { LoadFont.warn path w with
            fontReads := (LoadFont.warn path w).fontReads ++ [LoadFont.fontPath path] })) ∨
      ∃ f, lib.LoadFontFile (LoadFont.fontPath path) = some f ∧
        LoadFont lib path w = (.ok f,
          { LoadFont.warn path w with
            fontReads := (LoadFont.warn path w).fontReads ++ [LoadFont.fontPath path]
            loadedFonts := (LoadFont.fontPath path, f) :: (LoadFont.warn path w).loadedFonts })) := by
  constructor
  · cases hc : (LoadFont.warn path w).loadedFonts.lookup (LoadFont.fontPath path) with
    | none => exact Or.inl rfl
    | some f => exact Or.inr ⟨f, rfl, by simp [LoadFont, hc]⟩
  · intro hc
    cases hl : lib.LoadFontFile (LoadFont.fontPath path) with
    | none => exact Or.inl ⟨rfl, by simp [LoadFont, hc, hl]⟩
    | some f => exact Or.inr ⟨f, rfl, by simp [LoadFont, hc, hl]⟩

theorem LoadFont_layouts (lib : Lib) (path : List String) (w : World) :
    (LoadFont lib path w).2.layouts = w.layouts := by
  obtain ⟨h1, h2⟩ := LoadFont_cases lib path w
  rcases h1 with hc | ⟨f, -, e⟩
  · rcases h2 hc with ⟨-, e⟩ | ⟨f, -, e⟩ <;> rw [e] <;> exact warn_layouts path w
  · rw [e]; exact warn_layouts path w

theorem LoadFont_writeCalls (lib : Lib) (path : List String) (w : World) :
    (LoadFont lib path w).2.writeCalls = w.writeCalls := by
  obtain ⟨h1, h2⟩ := LoadFont_cases lib path w
  rcases h1 with hc | ⟨f, -, e⟩
  · rcases h2 hc with ⟨-, e⟩ | ⟨f, -, e⟩ <;> rw [e] <;> exact warn_writeCalls path w
  · rw [e]; exact warn_writeCalls path w

theorem LoadFont_nil_of_cached (lib : Lib) (w : World) (font : Font)
    (h : w.loadedFonts.lookup defaultFontPath = some font) :
    LoadFont lib [] w = (.ok font, w) := by
  simp [LoadFont, LoadFont.fontPath, warn_nil, h]

theorem LoadFont_nil_cached (lib : Lib) (w : World) (font : Font)
    (h : (LoadFont lib [] w).1 = .ok font) :
    (LoadFont lib [] w).2.loadedFonts.lookup defaultFontPath = some font := by
  obtain ⟨h1, h2⟩ := LoadFont_cases lib [] w
  simp only [warn_nil, LoadFont.fontPath] at h1 h2
  rcases h1 with hc | ⟨f, hf, e⟩
  · rcases h2 hc with ⟨-, e⟩ | ⟨f, -, e⟩
    · rw [e] at h; simp at h
    · rw [e] at h ⊢
      simp only [Except.ok.injEq] at h
      simp [List.lookup, h]
  · rw [e] at h ⊢
    simp only [Except.ok.injEq] at h
    simpa [h] using hf

theorem LoadFont_not_invalidFontSize (lib : Lib) (path : List String) (w : World) (n : Int) :
    (LoadFont lib path w).1 ≠ .error (.invalidFontSize n) := by
  obtain ⟨h1, h2⟩ := LoadFont_cases lib path w
  rcases h1 with hc | ⟨f, -, e⟩
  · rcases h2 hc with ⟨-, e⟩ | ⟨f, -, e⟩ <;> rw [e] <;> simp
  · rw [e]; simp

/-! ## The size loop -/

theorem sizeLoop_exit (lib : Lib) (text : String) (width maxHeight : ℚ) (fillColor : RGBA)
    (halign : TextAlign) (sizePt : Int) (w : World) (h : sizePt < 10) :
    sizeLoop lib text width maxHeight fillColor halign sizePt w = (.ok none, w) := by
  rw [sizeLoop, if_neg (by omega)]

theorem sizeLoop_error (lib : Lib) (text : String) (width maxHeight : ℚ) (fillColor : RGBA)
    (halign : TextAlign) (sizePt : Int) (w : World) (e : Err) (h : 10 ≤ sizePt)
    (he : (LoadFont lib [] w).1 = .error e) :
    sizeLoop lib text width maxHeight fillColor halign sizePt w =
      (.error e, (LoadFont lib [] w).2) := by
  rw [sizeLoop, if_pos h]
  rcases hL : LoadFont lib [] w with ⟨r, w1⟩
  rw [hL] at he
  cases r with
  | error e1 => simp only at he ⊢; rw [Except.error.injEq] at he; rw [he]
  | ok f => simp at he

theorem sizeLoop_step (lib : Lib) (text : String) (width maxHeight : ℚ) (fillColor : RGBA)
    (halign : TextAlign) (sizePt : Int) (w : World) (font : Font) (h : 10 ≤ sizePt)
    (hf : (LoadFont lib [] w).1 = .ok font) :
    sizeLoop lib text width maxHeight fillColor halign sizePt w =
      if lib.OutlineBoundsH (layoutAt font fillColor text width halign sizePt) < maxHeight then
        (.ok (some (layoutAt font fillColor text width halign sizePt)),
          { (LoadFont lib [] w).2 with layouts := (LoadFont lib [] w).2.layouts ++
              [layoutAt font fillColor text width halign sizePt] })
      else
        sizeLoop lib text width maxHeight fillColor halign (sizePt - 1)
          { (LoadFont lib [] w).2 with layouts := (LoadFont lib [] w).2.layouts ++
              [layoutAt font fillColor text width halign sizePt] } := by
  rw [sizeLoop, if_pos h]
  rcases hL : LoadFont lib [] w with ⟨r, w1⟩
  rw [hL] at hf
  cases r with
  | error e1 => simp at hf
  | ok f => simp only at hf ⊢; rw [Except.ok.injEq] at hf; rw [hf]

/-- Once the default font has been obtained it stays obtainable: the loop only
appends to `layouts`. -/
theorem LoadFont_ready_next (lib : Lib) (w : World) (font : Font) (t : Text)
    (hf : (LoadFont lib [] w).1 = .ok font) :
    (LoadFont lib []
      { (LoadFont lib [] w).2 with layouts := (LoadFont lib [] w).2.layouts ++ [t] }).1 =
      .ok font := by
  have hc := LoadFont_nil_cached lib w font hf
  rw [LoadFont_nil_of_cached lib _ font (by exact hc)]

theorem sizeLoop_fit (lib : Lib) (text : String) (width maxHeight : ℚ) (fillColor : RGBA)
    (halign : TextAlign) (font : Font) :
    ∀ (n : Nat) (sizePt : Int) (w : World), (sizePt - 9).toNat = n →
      (LoadFont lib [] w).1 = .ok font →
      (∃ s, 10 ≤ s ∧ s ≤ sizePt ∧
        lib.OutlineBoundsH (layoutAt font fillColor text width halign s) < maxHeight) →
      ∃ s, 10 ≤ s ∧ s ≤ sizePt ∧
        lib.OutlineBoundsH (layoutAt font fillColor text width halign s) < maxHeight ∧
        (∀ s', s < s' → s' ≤ sizePt →
          maxHeight ≤ lib.OutlineBoundsH (layoutAt font fillColor text width halign s')) ∧
        (sizeLoop lib text width maxHeight fillColor halign sizePt w).1 =
          .ok (some (layoutAt font fillColor text width halign s)) := by
  intro n
  induction n with
  | zero =>
    intro sizePt w hn _ ⟨s, h10, hs, _⟩
    omega
  | succ n ih =>
    intro sizePt w hn hf ⟨s, h10, hs, hfit⟩
    have h : 10 ≤ sizePt := by omega
    rw [sizeLoop_step lib text width maxHeight fillColor halign sizePt w font h hf]
    by_cases hH : lib.OutlineBoundsH (layoutAt font fillColor text width halign sizePt) < maxHeight
    · refine ⟨sizePt, h, le_refl _, hH, ?_, ?_⟩
      · intro s' h1 h2; omega
      · rw [if_pos hH]
    · rw [if_neg hH]
      have hs' : s ≤ sizePt - 1 := by
        rcases eq_or_lt_of_le hs with e | l
        · subst e; exact absurd hfit hH
        · omega
      obtain ⟨s0, a, b, c, d, e⟩ := ih (sizePt - 1) _ (by omega)
        (LoadFont_ready_next lib w font _ hf) ⟨s, h10, hs', hfit⟩
      refine ⟨s0, a, by omega, c, ?_, e⟩
      intro s' h1 h2
      rcases eq_or_lt_of_le h2 with e2 | l2
      · subst e2; exact not_lt.mp hH
      · exact d s' h1 (by omega)

theorem sizeLoop_nofit (lib : Lib) (text : String) (width maxHeight : ℚ) (fillColor : RGBA)
    (halign : TextAlign) (font : Font) :
    ∀ (n : Nat) (sizePt : Int) (w : World), (sizePt - 9).toNat = n →
      (LoadFont lib [] w).1 = .ok font →
      (∀ s, 10 ≤ s → s ≤ sizePt →
        maxHeight ≤ lib.OutlineBoundsH (layoutAt font fillColor text width halign s)) →
      (sizeLoop lib text width maxHeight fillColor halign sizePt w).1 = .ok none := by
  intro n
  induction n with
  | zero =>
    intro sizePt w hn _ _
    rw [sizeLoop_exit _ _ _ _ _ _ _ _ (by omega)]
  | succ n ih =>
    intro sizePt w hn hf hall
    have h : 10 ≤ sizePt := by omega
    rw [sizeLoop_step lib text width maxHeight fillColor halign sizePt w font h hf,
      if_neg (not_lt.mpr (hall sizePt h (le_refl _)))]
    exact ih (sizePt - 1) _ (by omega) (LoadFont_ready_next lib w font _ hf)
      (fun s a b => hall s a (by omega))

/-- Induction along the iterations of the size loop. -/
theorem sizeLoop_induct (lib : Lib) (text : String) (width maxHeight : ℚ) (fillColor : RGBA)
    (halign : TextAlign) (P : World → Except Err (Option Text) × World → Prop)
    (hexit : ∀ w, P w (.ok none, w))
    (herr : ∀ w e, (LoadFont lib [] w).1 = .error e → P w (.error e, (LoadFont lib [] w).2))
    (hret : ∀ w font s, (LoadFont lib [] w).1 = .ok font →
      P w (.ok (some (layoutAt font fillColor text width halign s)),
        { (LoadFont lib [] w).2 with layouts := (LoadFont lib [] w).2.layouts ++
            [layoutAt font fillColor text width halign s] }))
    (hstep : ∀ w font s r, (LoadFont lib [] w).1 = .ok font →
      P { (LoadFont lib [] w).2 with layouts := (LoadFont lib [] w).2.layouts ++
            [layoutAt font fillColor text width halign s] } r → P w r) :
    ∀ (n : Nat) (sizePt : Int) (w : World), (sizePt - 9).toNat = n →
      P w (sizeLoop lib text width maxHeight fillColor halign sizePt w) := by
  intro n
  induction n with
  | zero =>
    intro sizePt w hn
    rw [sizeLoop_exit _ _ _ _ _ _ _ _ (by omega)]
    exact hexit w
  | succ n ih =>
    intro sizePt w hn
    have h : 10 ≤ sizePt := by omega
    cases hL : (LoadFont lib [] w).1 with
    | error e =>
      rw [sizeLoop_error lib text width maxHeight fillColor halign sizePt w e h hL]
      exact herr w e hL
    | ok font =>
      rw [sizeLoop_step lib text width maxHeight fillColor halign sizePt w font h hL]
      split
      · exact hret w font sizePt hL
      · exact hstep w font sizePt _ hL (ih (sizePt - 1) _ (by omega))

theorem sizeLoop_not_invalidFontSize (lib : Lib) (text : String) (width maxHeight : ℚ)
    (fillColor : RGBA) (halign : TextAlign) (sizePt : Int) (w : World) (n : Int) :
    (sizeLoop lib text width maxHeight fillColor halign sizePt w).1 ≠
      .error (.invalidFontSize n) := by
  refine sizeLoop_induct lib text width maxHeight fillColor halign
    (fun _ r => r.1 ≠ .error (.invalidFontSize n)) ?_ ?_ ?_ ?_ _ sizePt w rfl
  · intro w; simp
  · intro w e he h
    have h' : e = .invalidFontSize n := by simpa using h
    exact LoadFont_not_invalidFontSize lib [] w n (by rw [he, h'])
  · intro w font s _; simp
  · intro w font s r _ h; exact h

theorem sizeLoop_writeCalls (lib : Lib) (text : String) (width maxHeight : ℚ)
    (fillColor : RGBA) (halign : TextAlign) (sizePt : Int) (w : World) :
    (sizeLoop lib text width maxHeight fillColor halign sizePt w).2.writeCalls =
      w.writeCalls := by
  refine sizeLoop_induct lib text width maxHeight fillColor halign
    (fun w r => r.2.writeCalls = w.writeCalls) ?_ ?_ ?_ ?_ _ sizePt w rfl
  · intro w; rfl
  · intro w e _; exact LoadFont_writeCalls lib [] w
  · intro w font s _; exact LoadFont_writeCalls lib [] w
  · intro w font s r _ h; exact h.trans (LoadFont_writeCalls lib [] w)

theorem sizeLoop_layouts (lib : Lib) (text : String) (width maxHeight : ℚ)
    (fillColor : RGBA) (halign : TextAlign) (sizePt : Int) (w : World) :
    ∃ new, (sizeLoop lib text width maxHeight fillColor halign sizePt w).2.layouts =
        w.layouts ++ new ∧ ∀ t ∈ new, t.text = text := by
  refine sizeLoop_induct lib text width maxHeight fillColor halign
    (fun w r => ∃ new, r.2.layouts = w.layouts ++ new ∧ ∀ t ∈ new, t.text = text)
    ?_ ?_ ?_ ?_ _ sizePt w rfl
  · intro w; exact ⟨[], by simp, by simp⟩
  · intro w e _; exact ⟨[], by simp [LoadFont_layouts], by simp⟩
  · intro w font s _
    exact ⟨[layoutAt font fillColor text width halign s], by simp [LoadFont_layouts],
      by simp [layoutAt]⟩
  · intro w font s r _ ⟨new, h1, h2⟩
    refine ⟨layoutAt font fillColor text width halign s :: new, ?_, ?_⟩
    · rw [h1]; simp [LoadFont_layouts]
    · intro t ht
      rcases List.mem_cons.mp ht with e | m
      · rw [e]; rfl
      · exact h2 t m

/-! ## The options -/

theorem foldl_applyOpt_maxFontSize (opts : List Opt) (s : Style) :
    (opts.foldl applyOpt s).maxFontSize =
      match (opts.filterMap fun o => match o with
        | .int n => some n
        | _ => none).getLast? with
      | some n => n
      | none => s.maxFontSize := by
  induction opts using List.reverseRecOn with
  | nil => rfl
  | append_singleton l o ih =>
    rw [List.foldl_append, List.filterMap_append]
    cases o <;> simp [applyOpt, ih, List.getLast?_append]

theorem readOpts_maxFontSize (opts : List Opt) :
    (readOpts opts).maxFontSize = effectiveMaxFontSize opts :=
  foldl_applyOpt_maxFontSize opts _

/-! ## The fitter -/

theorem GetFirstNonOverflowingText_of_valid (lib : Lib) (text : String) (width maxHeight : ℚ)
    (opts : List Opt) (w : World) (h : 10 ≤ (readOpts opts).maxFontSize) :
    GetFirstNonOverflowingText lib text width maxHeight opts w =
      sizeLoop lib text width maxHeight (readOpts opts).fillColor (readOpts opts).halign
        (readOpts opts).maxFontSize w := by
  simp only [GetFirstNonOverflowingText]
  rw [if_neg (by omega)]

theorem GetFirstNonOverflowingText_of_invalid (lib : Lib) (text : String)
    (width maxHeight : ℚ) (opts : List Opt) (w : World) (h : (readOpts opts).maxFontSize < 10) :
    GetFirstNonOverflowingText lib text width maxHeight opts w =
      (.error (.invalidFontSize (readOpts opts).maxFontSize), w) := by
  simp only [GetFirstNonOverflowingText]
  rw [if_pos h]

theorem GetFirstNonOverflowingText_nofit (lib : Lib) (text : String) (width maxHeight : ℚ)
    (opts : List Opt) (w : World) (font : Font)
    (hfont : (LoadFont lib [] w).1 = .ok font)
    (hmax : 10 ≤ (readOpts opts).maxFontSize)
    (hall : ∀ s, 10 ≤ s → s ≤ (readOpts opts).maxFontSize →
      maxHeight ≤ lib.OutlineBoundsH
        (layoutAt font (readOpts opts).fillColor text width (readOpts opts).halign s)) :
    (GetFirstNonOverflowingText lib text width maxHeight opts w).1 = .ok none := by
  rw [GetFirstNonOverflowingText_of_valid lib text width maxHeight opts w hmax]
  exact sizeLoop_nofit lib text width maxHeight _ _ font _ _ w rfl hfont hall

/-- C1: when some size in `[10, maxFontSize]` has an outline height strictly
below `maxHeight`, the fitter returns the box laid out at the largest such
size: the returned size fits, and every larger size up to `maxFontSize` has a
height of at least `maxHeight` (a height equal to `maxHeight` overflows).  The
height is an arbitrary function of the size; the default font is obtainable. -/
theorem GetFirstNonOverflowingText_largest_fitting (lib : Lib) (text : String)
    (width maxHeight : ℚ) (opts : List Opt) (w : World) (font : Font)
    (hfont : (LoadFont lib [] w).1 = .ok font)
    (hfit : ∃ s, 10 ≤ s ∧ s ≤ (readOpts opts).maxFontSize ∧
      lib.OutlineBoundsH
        (layoutAt font (readOpts opts).fillColor text width (readOpts opts).halign s) <
          maxHeight) :
    ∃ s, 10 ≤ s ∧ s ≤ (readOpts opts).maxFontSize ∧
      (GetFirstNonOverflowingText lib text width maxHeight opts w).1 =
        .ok (some (layoutAt font (readOpts opts).fillColor text width
          (readOpts opts).halign s)) ∧
      lib.OutlineBoundsH
        (layoutAt font (readOpts opts).fillColor text width (readOpts opts).halign s) <
          maxHeight ∧
      ∀ s', s < s' → s' ≤ (readOpts opts).maxFontSize →
        maxHeight ≤ lib.OutlineBoundsH
          (layoutAt font (readOpts opts).fillColor text width (readOpts opts).halign s') := by
  have hmax : 10 ≤ (readOpts opts).maxFontSize := by
    obtain ⟨s, a, b, -⟩ := hfit
    omega
  rw [GetFirstNonOverflowingText_of_valid lib text width maxHeight opts w hmax]
  obtain ⟨s, a, b, c, d, e⟩ :=
    sizeLoop_fit lib text width maxHeight _ _ font _ _ w rfl hfont hfit
  exact ⟨s, a, b, e, c, d⟩

/-- C2, at the failing input: maximum size 10 and a box of height 10 at size 10
against `maxHeight = 8`.  Nothing fits, and the fitter returns `nil`, not the
box laid out at size 10. -/
theorem GetFirstNonOverflowingText_nothing_fits_nil :
    (GetFirstNonOverflowingText sampleLib "501,784" 128 8
        [.int 10, .rgba canvas.Black, .textAlign canvas.Center] World.init).1 = .ok none ∧
      (GetFirstNonOverflowingText sampleLib "501,784" 128 8
        [.int 10, .rgba canvas.Black, .textAlign canvas.Center] World.init).1 ≠
        .ok (some (layoutAt ⟨1⟩ canvas.Black "501,784" 128 canvas.Center 10)) := by
  have h : (GetFirstNonOverflowingText sampleLib "501,784" 128 8
      [.int 10, .rgba canvas.Black, .textAlign canvas.Center] World.init).1 = .ok none := by
    refine GetFirstNonOverflowingText_nofit sampleLib _ _ _ _ _ ⟨1⟩ rfl (by decide) ?_
    intro s h10 _
    have : (10 : ℚ) ≤ (s : ℚ) := by exact_mod_cast h10
    simp only [sampleLib, layoutAt]
    linarith
  exact ⟨h, by rw [h]; simp⟩

/-- C3: the fitter panics with the invalid-font-size error exactly when the
effective maximum font size (the last `int` option, or 70 without one) is
below 10; it then panics with the world untouched (no font load, no layout).
With maximum 9 it panics for every text and box, with maximum 10 never. -/
theorem GetFirstNonOverflowingText_invalidFontSize_iff (lib : Lib) (text : String)
    (width maxHeight : ℚ) (opts : List Opt) (w : World) :
    ((∃ n, (GetFirstNonOverflowingText lib text width maxHeight opts w).1 =
        .error (.invalidFontSize n)) ↔ effectiveMaxFontSize opts < 10) ∧
    (effectiveMaxFontSize opts < 10 →
      GetFirstNonOverflowingText lib text width maxHeight opts w =
        (.error (.invalidFontSize (effectiveMaxFontSize opts)), w)) ∧
    GetFirstNonOverflowingText lib text width maxHeight [.int 9] w =
      (.error (.invalidFontSize 9), w) ∧
    (∀ n, (GetFirstNonOverflowingText lib text width maxHeight [.int 10] w).1 ≠
      .error (.invalidFontSize n)) := by
  have hlt : effectiveMaxFontSize opts < 10 →
      GetFirstNonOverflowingText lib text width maxHeight opts w =
        (.error (.invalidFontSize (effectiveMaxFontSize opts)), w) := by
    intro h
    rw [← readOpts_maxFontSize] at h ⊢
    exact GetFirstNonOverflowingText_of_invalid lib text width maxHeight opts w h
  refine ⟨⟨?_, ?_⟩, hlt, ?_, ?_⟩
  · rintro ⟨n, hn⟩
    by_contra hge
    rw [← readOpts_maxFontSize] at hge
    rw [GetFirstNonOverflowingText_of_valid lib text width maxHeight opts w (by omega)] at hn
    exact sizeLoop_not_invalidFontSize _ _ _ _ _ _ _ _ n hn
  · intro h
    exact ⟨_, by rw [hlt h]⟩
  · exact GetFirstNonOverflowingText_of_invalid lib text width maxHeight [.int 9] w
      (by decide)
  · intro n hn
    rw [GetFirstNonOverflowingText_of_valid lib text width maxHeight [.int 10] w
      (by decide)] at hn
    exact sizeLoop_not_invalidFontSize _ _ _ _ _ _ _ _ n hn

/-- C1 at a concrete input: heights 14, 13, 12, 11, 10 for the sizes 14 down to
10 and `maxHeight = 12`.  Size 12 is as high as the limit and overflows; the
box of size 11 is returned. -/
theorem GetFirstNonOverflowingText_largest_fitting_witness :
    (LoadFont sampleLib [] World.init).1 = .ok ⟨1⟩ ∧
    (GetFirstNonOverflowingText sampleLib "501,784" 128 12 [.int 14] World.init).1 =
      .ok (some (layoutAt ⟨1⟩ canvas.Black "501,784" 128 canvas.Top 11)) := by
  have hfont : (LoadFont sampleLib [] World.init).1 = .ok ⟨1⟩ := rfl
  refine ⟨hfont, ?_⟩
  obtain ⟨s, h10, hmax, hret, hlt, hall⟩ :=
    GetFirstNonOverflowingText_largest_fitting sampleLib "501,784" 128 12 [.int 14]
      World.init ⟨1⟩ hfont ⟨11, by decide, by decide, by
        simp only [sampleLib, layoutAt]; norm_num⟩
  have e : (readOpts [.int 14]) = ⟨canvas.Black, canvas.Top, 14⟩ := rfl
  rw [e] at hret hlt hall hmax
  simp only [sampleLib, layoutAt] at hlt hall
  have h1 : s < 12 := by exact_mod_cast hlt
  have h2 : ¬ s < 11 := by
    intro hs
    have := hall 11 hs (by decide)
    norm_num at this
  have h3 : s = 11 := by omega
  rw [h3] at hret
  exact hret

theorem GetFirstNonOverflowingText_first_fits (lib : Lib) (text : String)
    (width maxHeight : ℚ) (opts : List Opt) (w : World) (font : Font)
    (hfont : (LoadFont lib [] w).1 = .ok font)
    (hmax : 10 ≤ (readOpts opts).maxFontSize)
    (hfit : lib.OutlineBoundsH (layoutAt font (readOpts opts).fillColor text width
      (readOpts opts).halign (readOpts opts).maxFontSize) < maxHeight) :
    (GetFirstNonOverflowingText lib text width maxHeight opts w).1 =
      .ok (some (layoutAt font (readOpts opts).fillColor text width (readOpts opts).halign
        (readOpts opts).maxFontSize)) := by
  rw [GetFirstNonOverflowingText_of_valid lib text width maxHeight opts w hmax,
    sizeLoop_step lib text width maxHeight _ _ _ w font hmax hfont, if_pos hfit]

theorem GetFirstNonOverflowingText_writeCalls (lib : Lib) (text : String)
    (width maxHeight : ℚ) (opts : List Opt) (w : World) :
    (GetFirstNonOverflowingText lib text width maxHeight opts w).2.writeCalls =
      w.writeCalls := by
  simp only [GetFirstNonOverflowingText]
  split
  · rfl
  · exact sizeLoop_writeCalls _ _ _ _ _ _ _ _

theorem GetFirstNonOverflowingText_layouts (lib : Lib) (text : String)
    (width maxHeight : ℚ) (opts : List Opt) (w : World) :
    ∃ new, (GetFirstNonOverflowingText lib text width maxHeight opts w).2.layouts =
        w.layouts ++ new ∧ ∀ t ∈ new, t.text = text := by
  simp only [GetFirstNonOverflowingText]
  split
  · exact ⟨[], by simp, by simp⟩
  · exact sizeLoop_layouts _ _ _ _ _ _ _ _

/-! ## Placement -/

theorem maxWidth_eq_max (config : TextConfig) (boundsW : ℚ) :
    Run.maxWidth config boundsW = max config.MaxWidth boundsW := by
  unfold Run.maxWidth
  split
  · rw [max_eq_right]; exact le_of_lt ‹_›
  · rw [max_eq_left]; exact not_lt.mp ‹_›

theorem origin_center (cW cH : ℚ) (config : TextConfig) (boundsW boundsH : ℚ)
    (h : config.TextAlign = canvas.Center) :
    Run.origin cW cH config boundsW boundsH =
      (cW * config.RelativeX - max config.MaxWidth boundsW / 2,
        cH * config.RelativeY + boundsH / 2) := by
  simp only [Run.origin, if_pos h, maxWidth_eq_max]
  norm_num
  constructor <;> ring

theorem origin_right (cW cH : ℚ) (config : TextConfig) (boundsW boundsH : ℚ)
    (h : config.TextAlign = canvas.Right) :
    Run.origin cW cH config boundsW boundsH =
      (cW * config.RelativeX - max config.MaxWidth boundsW,
        cH * config.RelativeY + boundsH / 2) := by
  have hne : config.TextAlign ≠ canvas.Center := by rw [h]; decide
  simp only [Run.origin, if_neg hne, if_pos h, maxWidth_eq_max]
  norm_num
  ring

theorem origin_default (cW cH : ℚ) (config : TextConfig) (boundsW boundsH : ℚ)
    (hC : config.TextAlign ≠ canvas.Center) (hR : config.TextAlign ≠ canvas.Right) :
    Run.origin cW cH config boundsW boundsH =
      (cW * config.RelativeX, cH * config.RelativeY + boundsH / 2) := by
  simp only [Run.origin, if_neg hC, if_neg hR]
  norm_num
  ring

theorem origin_snd (cW cH : ℚ) (config : TextConfig) (boundsW boundsH : ℚ) :
    (Run.origin cW cH config boundsW boundsH).2 = cH * config.RelativeY + boundsH / 2 := by
  by_cases hC : config.TextAlign = canvas.Center
  · rw [origin_center _ _ _ _ _ hC]
  · by_cases hR : config.TextAlign = canvas.Right
    · rw [origin_right _ _ _ _ _ hR]
    · rw [origin_default _ _ _ _ _ hC hR]

theorem place_snd (lib : Lib) (cW cH : ℚ) (config : TextConfig) (ctx : List DrawOp)
    (fitted : Except Err (Option Text) × World) :
    (Run.place lib cW cH config ctx fitted).2 = fitted.2 := by
  unfold Run.place
  split <;> rfl

/-- The iteration for a field whose text has been fitted. -/
theorem field_of_fit (lib : Lib) (cW cH : ℚ) (variableValues : M) (config : TextConfig)
    (ctx : List DrawOp) (w : World) (textBox : Text)
    (hfit : (GetFirstNonOverflowingText lib (Run.text variableValues config) config.MaxWidth
      config.MaxHeight [.int config.FontSize, .rgba config.Color, .textAlign config.TextAlign]
      w).1 = .ok (some textBox)) :
    Run.field lib cW cH variableValues config ctx w =
      (.ok (ctx ++ Run.draw lib
          (Run.origin cW cH config (lib.BoundsW textBox) (lib.BoundsH textBox)).1
          (Run.origin cW cH config (lib.BoundsW textBox) (lib.BoundsH textBox)).2 textBox),
        (GetFirstNonOverflowingText lib (Run.text variableValues config) config.MaxWidth
          config.MaxHeight
          [.int config.FontSize, .rgba config.Color, .textAlign config.TextAlign] w).2) := by
  unfold Run.field
  rcases hG : GetFirstNonOverflowingText lib (Run.text variableValues config) config.MaxWidth
    config.MaxHeight [.int config.FontSize, .rgba config.Color, .textAlign config.TextAlign]
    w with ⟨r, w1⟩
  rw [hG] at hfit
  simp only at hfit
  rw [hfit]
  rfl

theorem sampleConfig_fit (align : TextAlign) :
    (GetFirstNonOverflowingText sampleLib (Run.text (fun _ => none) (sampleConfig align))
      (sampleConfig align).MaxWidth (sampleConfig align).MaxHeight
      [.int (sampleConfig align).FontSize, .rgba (sampleConfig align).Color,
        .textAlign (sampleConfig align).TextAlign] World.init).1 =
      .ok (some (sampleBox align)) := by
  have e : readOpts [.int (sampleConfig align).FontSize, .rgba (sampleConfig align).Color,
      .textAlign (sampleConfig align).TextAlign] = ⟨canvas.Black, align, 10⟩ := rfl
  have h := GetFirstNonOverflowingText_first_fits sampleLib
    (Run.text (fun _ => none) (sampleConfig align)) (sampleConfig align).MaxWidth
    (sampleConfig align).MaxHeight [.int (sampleConfig align).FontSize,
      .rgba (sampleConfig align).Color, .textAlign (sampleConfig align).TextAlign]
    World.init ⟨1⟩ rfl (by rw [e]) (by
      rw [e]
      simp only [sampleLib, layoutAt, sampleConfig]
      norm_num)
  rw [e] at h
  exact h

/-- C4: in `Run`, a field aligned `Center` whose text has been fitted is drawn
at `x = c.W * RelativeX - max(MaxWidth, textBox.Bounds().W) / 2` and
`y = c.H * RelativeY + textBox.Bounds().H / 2`. -/
theorem Run_field_center (lib : Lib) (cW cH : ℚ) (variableValues : M)
    (config : TextConfig) (ctx : List DrawOp) (w : World) (textBox : Text)
    (hfit : (GetFirstNonOverflowingText lib (Run.text variableValues config) config.MaxWidth
      config.MaxHeight [.int config.FontSize, .rgba config.Color, .textAlign config.TextAlign]
      w).1 = .ok (some textBox))
    (hC : config.TextAlign = canvas.Center) :
    Run.field lib cW cH variableValues config ctx w =
      (.ok (ctx ++ Run.draw lib
          (cW * config.RelativeX - max config.MaxWidth (lib.BoundsW textBox) / 2)
          (cH * config.RelativeY + lib.BoundsH textBox / 2) textBox),
        (GetFirstNonOverflowingText lib (Run.text variableValues config) config.MaxWidth
      config.MaxHeight [.int config.FontSize, .rgba config.Color, .textAlign config.TextAlign]
      w).2) := by
  rw [field_of_fit lib cW cH variableValues config ctx w textBox hfit,
    origin_center _ _ _ _ _ hC]

/-- C4 at the spec's numbers: canvas 1000 by 800, anchor (0.5, 0.5), `Center`,
a fitted box measuring 200 by 40 with `MaxWidth = 128`: the measured width is
the reference width and the origin is (400, 420). -/
theorem Run_field_center_witness :
    (GetFirstNonOverflowingText sampleLib (Run.text (fun _ => none) (sampleConfig canvas.Center))
      (sampleConfig canvas.Center).MaxWidth (sampleConfig canvas.Center).MaxHeight
      [.int (sampleConfig canvas.Center).FontSize, .rgba (sampleConfig canvas.Center).Color,
        .textAlign (sampleConfig canvas.Center).TextAlign] World.init).1 =
      .ok (some (sampleBox canvas.Center)) ∧
    (sampleConfig canvas.Center).TextAlign = canvas.Center ∧
    (Run.field sampleLib 1000 800 (fun _ => none) (sampleConfig canvas.Center) []
      World.init).1 = .ok (Run.draw sampleLib 400 420 (sampleBox canvas.Center)) := by
  refine ⟨sampleConfig_fit canvas.Center, rfl, ?_⟩
  rw [Run_field_center sampleLib 1000 800 (fun _ => none) (sampleConfig canvas.Center) []
    World.init (sampleBox canvas.Center) (sampleConfig_fit canvas.Center) rfl]
  simp only [sampleLib, sampleConfig, List.nil_append]
  norm_num

/-- C5: in `Run`, a field aligned `Right` whose text has been fitted is drawn at
`x = c.W * RelativeX - max(MaxWidth, textBox.Bounds().W)`. -/
theorem Run_field_right (lib : Lib) (cW cH : ℚ) (variableValues : M)
    (config : TextConfig) (ctx : List DrawOp) (w : World) (textBox : Text)
    (hfit : (GetFirstNonOverflowingText lib (Run.text variableValues config) config.MaxWidth
      config.MaxHeight [.int config.FontSize, .rgba config.Color, .textAlign config.TextAlign]
      w).1 = .ok (some textBox))
    (hR : config.TextAlign = canvas.Right) :
    Run.field lib cW cH variableValues config ctx w =
      (.ok (ctx ++ Run.draw lib
          (cW * config.RelativeX - max config.MaxWidth (lib.BoundsW textBox))
          (cH * config.RelativeY + lib.BoundsH textBox / 2) textBox),
        (GetFirstNonOverflowingText lib (Run.text variableValues config) config.MaxWidth
      config.MaxHeight [.int config.FontSize, .rgba config.Color, .textAlign config.TextAlign]
      w).2) := by
  rw [field_of_fit lib cW cH variableValues config ctx w textBox hfit,
    origin_right _ _ _ _ _ hR]

/-- C5 at the spec's numbers: canvas width 1000, anchor x 0.5, `Right`,
reference width 200: `x = 500 - 200 = 300`. -/
theorem Run_field_right_witness :
    (GetFirstNonOverflowingText sampleLib (Run.text (fun _ => none) (sampleConfig canvas.Right))
      (sampleConfig canvas.Right).MaxWidth (sampleConfig canvas.Right).MaxHeight
      [.int (sampleConfig canvas.Right).FontSize, .rgba (sampleConfig canvas.Right).Color,
        .textAlign (sampleConfig canvas.Right).TextAlign] World.init).1 =
      .ok (some (sampleBox canvas.Right)) ∧
    (sampleConfig canvas.Right).TextAlign = canvas.Right ∧
    (Run.field sampleLib 1000 800 (fun _ => none) (sampleConfig canvas.Right) []
      World.init).1 = .ok (Run.draw sampleLib 300 420 (sampleBox canvas.Right)) := by
  refine ⟨sampleConfig_fit canvas.Right, rfl, ?_⟩
  rw [Run_field_right sampleLib 1000 800 (fun _ => none) (sampleConfig canvas.Right) []
    World.init (sampleBox canvas.Right) (sampleConfig_fit canvas.Right) rfl]
  simp only [sampleLib, sampleConfig, List.nil_append]
  norm_num

/-- C6: in `Run`, whatever the alignment, a field whose text has been fitted is
drawn at `y = c.H * RelativeY + textBox.Bounds().H / 2`; the `y` of the origin
is the same for any other alignment, `MaxWidth`, canvas width, anchor x and
measured width. -/
theorem Run_field_y (lib : Lib) (cW cH : ℚ) (variableValues : M)
    (config : TextConfig) (ctx : List DrawOp) (w : World) (textBox : Text)
    (hfit : (GetFirstNonOverflowingText lib (Run.text variableValues config) config.MaxWidth
      config.MaxHeight [.int config.FontSize, .rgba config.Color, .textAlign config.TextAlign]
      w).1 = .ok (some textBox)) :
    (∃ x, Run.field lib cW cH variableValues config ctx w =
      (.ok (ctx ++ Run.draw lib x (cH * config.RelativeY + lib.BoundsH textBox / 2) textBox),
        (GetFirstNonOverflowingText lib (Run.text variableValues config) config.MaxWidth
      config.MaxHeight [.int config.FontSize, .rgba config.Color, .textAlign config.TextAlign]
      w).2)) ∧
    ∀ (config' : TextConfig) (cW' boundsW' : ℚ), config'.RelativeY = config.RelativeY →
      (Run.origin cW' cH config' boundsW' (lib.BoundsH textBox)).2 =
        (Run.origin cW cH config (lib.BoundsW textBox) (lib.BoundsH textBox)).2 := by
  constructor
  · refine ⟨(Run.origin cW cH config (lib.BoundsW textBox) (lib.BoundsH textBox)).1, ?_⟩
    rw [field_of_fit lib cW cH variableValues config ctx w textBox hfit, origin_snd]
  · intro config' cW' boundsW' h
    rw [origin_snd, origin_snd, h]

/-- C6 at a concrete input: alignment `Top`, canvas height 800, anchor y 0.5 and
a box of height 40 give `y = 420`. -/
theorem Run_field_y_witness :
    (GetFirstNonOverflowingText sampleLib (Run.text (fun _ => none) (sampleConfig canvas.Top))
      (sampleConfig canvas.Top).MaxWidth (sampleConfig canvas.Top).MaxHeight
      [.int (sampleConfig canvas.Top).FontSize, .rgba (sampleConfig canvas.Top).Color,
        .textAlign (sampleConfig canvas.Top).TextAlign] World.init).1 =
      .ok (some (sampleBox canvas.Top)) ∧
    ∃ x, (Run.field sampleLib 1000 800 (fun _ => none) (sampleConfig canvas.Top) []
      World.init).1 = .ok (Run.draw sampleLib x 420 (sampleBox canvas.Top)) := by
  refine ⟨sampleConfig_fit canvas.Top, ?_⟩
  obtain ⟨x, hx⟩ := (Run_field_y sampleLib 1000 800 (fun _ => none) (sampleConfig canvas.Top) []
    World.init (sampleBox canvas.Top) (sampleConfig_fit canvas.Top)).1
  refine ⟨x, ?_⟩
  rw [hx]
  simp only [sampleLib, sampleConfig, List.nil_append]
  norm_num

/-- C10: in `Run`, a field aligned `Left`, or with any alignment other than
`Center` and `Right`, whose text has been fitted is drawn at
`x = c.W * RelativeX`, whatever `MaxWidth` and the measured width are. -/
theorem Run_field_left_or_default (lib : Lib) (cW cH : ℚ) (variableValues : M)
    (config : TextConfig) (ctx : List DrawOp) (w : World) (textBox : Text)
    (hfit : (GetFirstNonOverflowingText lib (Run.text variableValues config) config.MaxWidth
      config.MaxHeight [.int config.FontSize, .rgba config.Color, .textAlign config.TextAlign]
      w).1 = .ok (some textBox))
    (hL : config.TextAlign = canvas.Left ∨
      (config.TextAlign ≠ canvas.Center ∧ config.TextAlign ≠ canvas.Right)) :
    Run.field lib cW cH variableValues config ctx w =
      (.ok (ctx ++ Run.draw lib (cW * config.RelativeX)
          (cH * config.RelativeY + lib.BoundsH textBox / 2) textBox),
        (GetFirstNonOverflowingText lib (Run.text variableValues config) config.MaxWidth
      config.MaxHeight [.int config.FontSize, .rgba config.Color, .textAlign config.TextAlign]
      w).2) := by
  have h : config.TextAlign ≠ canvas.Center ∧ config.TextAlign ≠ canvas.Right := by
    rcases hL with e | h
    · rw [e]; exact ⟨by decide, by decide⟩
    · exact h
  rw [field_of_fit lib cW cH variableValues config ctx w textBox hfit,
    origin_default _ _ _ _ _ h.1 h.2]

/-- C10 at a concrete input: canvas width 1000, anchor x 0.5, `Left`: `x = 500`,
although the box is 200 wide and `MaxWidth` is 128. -/
theorem Run_field_left_or_default_witness :
    (GetFirstNonOverflowingText sampleLib (Run.text (fun _ => none) (sampleConfig canvas.Left))
      (sampleConfig canvas.Left).MaxWidth (sampleConfig canvas.Left).MaxHeight
      [.int (sampleConfig canvas.Left).FontSize, .rgba (sampleConfig canvas.Left).Color,
        .textAlign (sampleConfig canvas.Left).TextAlign] World.init).1 =
      .ok (some (sampleBox canvas.Left)) ∧
    ((sampleConfig canvas.Left).TextAlign = canvas.Left ∨
      ((sampleConfig canvas.Left).TextAlign ≠ canvas.Center ∧
        (sampleConfig canvas.Left).TextAlign ≠ canvas.Right)) ∧
    (Run.field sampleLib 1000 800 (fun _ => none) (sampleConfig canvas.Left) []
      World.init).1 = .ok (Run.draw sampleLib 500 420 (sampleBox canvas.Left)) := by
  refine ⟨sampleConfig_fit canvas.Left, Or.inl rfl, ?_⟩
  rw [Run_field_left_or_default sampleLib 1000 800 (fun _ => none) (sampleConfig canvas.Left) []
    World.init (sampleBox canvas.Left) (sampleConfig_fit canvas.Left) (Or.inl rfl)]
  simp only [sampleLib, sampleConfig, List.nil_append]
  norm_num

/-! ## The loop over the fields -/

theorem field_writeCalls (lib : Lib) (cW cH : ℚ) (variableValues : M) (config : TextConfig)
    (ctx : List DrawOp) (w : World) :
    (Run.field lib cW cH variableValues config ctx w).2.writeCalls = w.writeCalls := by
  unfold Run.field
  rw [place_snd]
  exact GetFirstNonOverflowingText_writeCalls _ _ _ _ _ _

theorem field_invalid (lib : Lib) (cW cH : ℚ) (variableValues : M) (config : TextConfig)
    (ctx : List DrawOp) (w : World) (h : config.FontSize < 10) :
    Run.field lib cW cH variableValues config ctx w =
      (.error (.invalidFontSize config.FontSize), w) := by
  unfold Run.field
  rw [GetFirstNonOverflowingText_of_invalid _ _ _ _ _ _ (by exact h)]
  rfl

theorem fields_writeCalls (lib : Lib) (cW cH : ℚ) (variableValues : M) :
    ∀ (configs : List TextConfig) (ctx : List DrawOp) (w : World),
      (Run.fields lib cW cH variableValues configs ctx w).2.writeCalls = w.writeCalls := by
  intro configs
  induction configs with
  | nil => intro ctx w; rfl
  | cons config rest ih =>
    intro ctx w
    have hw := field_writeCalls lib cW cH variableValues config ctx w
    rw [Run.fields]
    rcases hf : Run.field lib cW cH variableValues config ctx w with ⟨r, w1⟩
    rw [hf] at hw
    cases r with
    | error e => exact hw
    | ok ctx1 => exact (ih ctx1 w1).trans hw

theorem fields_invalid (lib : Lib) (cW cH : ℚ) (variableValues : M) :
    ∀ (configs : List TextConfig) (ctx : List DrawOp) (w : World),
      (∃ config ∈ configs, config.FontSize < 10) →
      ∃ e, (Run.fields lib cW cH variableValues configs ctx w).1 = .error e := by
  intro configs
  induction configs with
  | nil => intro ctx w ⟨c, hc, _⟩; simp at hc
  | cons config rest ih =>
    intro ctx w ⟨c, hc, hlt⟩
    rw [Run.fields]
    rcases hf : Run.field lib cW cH variableValues config ctx w with ⟨r, w1⟩
    cases r with
    | error e => exact ⟨e, rfl⟩
    | ok ctx1 =>
      rcases List.mem_cons.mp hc with e | m
      · subst e
        rw [field_invalid lib cW cH variableValues c ctx w hlt] at hf
        simp at hf
      · exact ih ctx1 w1 ⟨c, m, hlt⟩

/-- The ways `Run` ends. -/
theorem Run_cases (lib : Lib) (template : ImageTemplate) (outPath : String)
    (variableValues : M) (w : World) :
    (lib.Open template.ResourcePath = false ∧
      Run lib template outPath variableValues w =
        (.error (.fileRead template.ResourcePath), w)) ∨
    (lib.NewPNGImage template.ResourcePath = none ∧
      Run lib template outPath variableValues w =
        (.error (.pngImage template.ResourcePath), w)) ∨
    (∃ pngSize e w1, lib.NewPNGImage template.ResourcePath = some pngSize ∧
      Run.fields lib ((pngSize.1 : ℚ) * mmPerPixel) ((pngSize.2 : ℚ) * mmPerPixel)
        variableValues template.Config [.DrawImage 0 0 template.ResourcePath] w =
        (.error e, w1) ∧
      Run lib template outPath variableValues w = (.error e, w1)) ∨
    (∃ pngSize ctx w1, lib.NewPNGImage template.ResourcePath = some pngSize ∧
      Run.fields lib ((pngSize.1 : ℚ) * mmPerPixel) ((pngSize.2 : ℚ) * mmPerPixel)
        variableValues template.Config [.DrawImage 0 0 template.ResourcePath] w =
        (.ok ctx, w1) ∧
      Run lib template outPath variableValues w =
        (if lib.WriteFile outPath ctx then .ok () else .error (.write outPath),
          { w1 with writeCalls := w1.writeCalls ++ [(outPath, ctx)] })) := by
  cases ho : lib.Open template.ResourcePath with
  | false => exact Or.inl ⟨rfl, by simp [Run, ho]⟩
  | true =>
    right
    cases hp : lib.NewPNGImage template.ResourcePath with
    | none => exact Or.inl ⟨rfl, by simp [Run, ho, hp]⟩
    | some pngSize =>
      right
      rcases hf : Run.fields lib ((pngSize.1 : ℚ) * mmPerPixel) ((pngSize.2 : ℚ) * mmPerPixel)
        variableValues template.Config [.DrawImage 0 0 template.ResourcePath] w with ⟨r, w1⟩
      cases r with
      | error e => exact Or.inl ⟨pngSize, e, w1, rfl, hf, by simp [Run, ho, hp, hf]⟩
      | ok ctx =>
        refine Or.inr ⟨pngSize, ctx, w1, rfl, hf, ?_⟩
        simp only [Run, ho, hp, hf, if_true]
        split <;> rfl

/-- C9: `Run` is all or nothing.  With a field of `FontSize` below 10 anywhere
in the list `Run` panics and `WriteFile` is not called; a panic while the
fields are processed is the outcome of `Run`, again without a call of
`WriteFile`; and when `WriteFile` is called, every field has been processed
without a panic and the drawing written is the complete one. -/
theorem Run_all_or_nothing (lib : Lib) (template : ImageTemplate) (outPath : String)
    (variableValues : M) (w : World) :
    ((∃ config ∈ template.Config, config.FontSize < 10) →
      (∃ e, (Run lib template outPath variableValues w).1 = .error e) ∧ (Run lib template outPath variableValues w).2.writeCalls = w.writeCalls) ∧
    (∀ pngSize e w1, lib.Open template.ResourcePath = true →
      lib.NewPNGImage template.ResourcePath = some pngSize →
      Run.fields lib ((pngSize.1 : ℚ) * mmPerPixel) ((pngSize.2 : ℚ) * mmPerPixel)
        variableValues template.Config [.DrawImage 0 0 template.ResourcePath] w = (.error e, w1) →
      Run lib template outPath variableValues w = (.error e, w1) ∧ w1.writeCalls = w.writeCalls) ∧
    ((Run lib template outPath variableValues w).2.writeCalls ≠ w.writeCalls →
      ∃ pngSize ctx w1, lib.NewPNGImage template.ResourcePath = some pngSize ∧
        Run.fields lib ((pngSize.1 : ℚ) * mmPerPixel) ((pngSize.2 : ℚ) * mmPerPixel)
        variableValues template.Config [.DrawImage 0 0 template.ResourcePath] w = (.ok ctx, w1) ∧
        (Run lib template outPath variableValues w).2.writeCalls = w.writeCalls ++ [(outPath, ctx)]) := by
  refine ⟨?_, ?_, ?_⟩
  · intro hbad
    rcases Run_cases lib template outPath variableValues w with
      ⟨-, e⟩ | ⟨-, e⟩ | ⟨pngSize, err, w1, -, hf, e⟩ | ⟨pngSize, ctx, w1, -, hf, e⟩
    · rw [e]; exact ⟨⟨_, rfl⟩, rfl⟩
    · rw [e]; exact ⟨⟨_, rfl⟩, rfl⟩
    · rw [e]
      refine ⟨⟨_, rfl⟩, ?_⟩
      have := fields_writeCalls lib ((pngSize.1 : ℚ) * mmPerPixel)
        ((pngSize.2 : ℚ) * mmPerPixel) variableValues template.Config
        [.DrawImage 0 0 template.ResourcePath] w
      rw [hf] at this
      exact this
    · obtain ⟨err, herr⟩ := fields_invalid lib ((pngSize.1 : ℚ) * mmPerPixel)
        ((pngSize.2 : ℚ) * mmPerPixel) variableValues template.Config
        [.DrawImage 0 0 template.ResourcePath] w hbad
      rw [hf] at herr
      simp at herr
  · intro pngSize e w1 ho hp hf
    refine ⟨by simp [Run, ho, hp, hf], ?_⟩
    have := fields_writeCalls lib ((pngSize.1 : ℚ) * mmPerPixel)
      ((pngSize.2 : ℚ) * mmPerPixel) variableValues template.Config
      [.DrawImage 0 0 template.ResourcePath] w
    rw [hf] at this
    exact this
  · intro hne
    rcases Run_cases lib template outPath variableValues w with
      ⟨-, e⟩ | ⟨-, e⟩ | ⟨pngSize, err, w1, -, hf, e⟩ | ⟨pngSize, ctx, w1, hp, hf, e⟩
    · rw [e] at hne; exact absurd rfl hne
    · rw [e] at hne; exact absurd rfl hne
    · have := fields_writeCalls lib ((pngSize.1 : ℚ) * mmPerPixel)
        ((pngSize.2 : ℚ) * mmPerPixel) variableValues template.Config
        [.DrawImage 0 0 template.ResourcePath] w
      rw [hf] at this
      rw [e] at hne
      exact absurd this hne
    · refine ⟨pngSize, ctx, w1, hp, hf, ?_⟩
      have := fields_writeCalls lib ((pngSize.1 : ℚ) * mmPerPixel)
        ((pngSize.2 : ℚ) * mmPerPixel) variableValues template.Config
        [.DrawImage 0 0 template.ResourcePath] w
      rw [hf] at this
      rw [e]
      simp only at this ⊢
      rw [this]

/-- C9 at a concrete input: the first field is fitted and drawn, the second has
`FontSize = 9`; `Run` panics with the invalid-font-size error and `WriteFile`
is not called. -/
theorem Run_all_or_nothing_witness :
    (∃ config ∈ sampleTemplate.Config, config.FontSize < 10) ∧
    (∃ ctx w1, Run.field sampleLib (400 * mmPerPixel) (300 * mmPerPixel) (fun _ => none)
      (sampleConfig canvas.Center) [.DrawImage 0 0 sampleTemplate.ResourcePath] World.init =
        (.ok ctx, w1)) ∧
    (Run sampleLib sampleTemplate "/tmp/out.png" (fun _ => none) World.init).1 =
      .error (.invalidFontSize 9) ∧
    (Run sampleLib sampleTemplate "/tmp/out.png" (fun _ => none) World.init).2.writeCalls =
      [] := by
  have hbad : ∃ config ∈ sampleTemplate.Config, config.FontSize < 10 :=
    ⟨{ sampleConfig canvas.Right with FontSize := 9 }, by simp [sampleTemplate], by decide⟩
  have hfield := field_of_fit sampleLib (400 * mmPerPixel) (300 * mmPerPixel) (fun _ => none)
    (sampleConfig canvas.Center) [.DrawImage 0 0 sampleTemplate.ResourcePath] World.init
    (sampleBox canvas.Center) (sampleConfig_fit canvas.Center)
  have hfields : (Run.fields sampleLib (((400, 300) : Int × Int).1 * mmPerPixel)
      (((400, 300) : Int × Int).2 * mmPerPixel) (fun _ => none) sampleTemplate.Config
      [.DrawImage 0 0 sampleTemplate.ResourcePath] World.init).1 =
        .error (.invalidFontSize 9) := by
    have hfield' := hfield
    simp only [sampleTemplate] at hfield' ⊢
    simp only [Run.fields, Int.cast_ofNat]
    rw [hfield']
    simp only
    rw [field_invalid _ _ _ _ _ _ _ (by decide)]
  have h := Run_all_or_nothing sampleLib sampleTemplate "/tmp/out.png" (fun _ => none)
    World.init
  refine ⟨hbad, ⟨_, _, hfield⟩, ?_, (h.1 hbad).2⟩
  rw [(h.2.1 (400, 300) _ _ rfl rfl (Prod.ext hfields rfl)).1]

/-- C7: in `Run`, the text handed to the fitter for a field is the mapped value
when `VariableName` is a key of the mapping (an empty value included) and
`VariableName` itself otherwise; every box laid out for the field carries that
text.  A mapping without the key `"{total}"` gives the text `"{total}"`. -/
theorem Run_field_text (lib : Lib) (cW cH : ℚ) (variableValues : M) (config : TextConfig)
    (ctx : List DrawOp) (w : World) :
    (∀ value, variableValues config.VariableName = some value →
      Run.field lib cW cH variableValues config ctx w =
        Run.place lib cW cH config ctx
          (GetFirstNonOverflowingText lib value config.MaxWidth config.MaxHeight [.int config.FontSize, .rgba config.Color, .textAlign config.TextAlign] w)) ∧
    (variableValues config.VariableName = none →
      Run.field lib cW cH variableValues config ctx w =
        Run.place lib cW cH config ctx
          (GetFirstNonOverflowingText lib config.VariableName config.MaxWidth
            config.MaxHeight [.int config.FontSize, .rgba config.Color, .textAlign config.TextAlign] w)) ∧
    (∃ new, (Run.field lib cW cH variableValues config ctx w).2.layouts = w.layouts ++ new ∧
      ∀ t ∈ new, t.text = (variableValues config.VariableName).getD config.VariableName) ∧
    (config.VariableName = "{total}" → variableValues "{total}" = none →
      Run.text variableValues config = "{total}") := by
  refine ⟨?_, ?_, ?_, ?_⟩
  · intro value h
    simp only [Run.field, Run.text, h]
  · intro h
    simp only [Run.field, Run.text, h]
  · have ht : Run.text variableValues config =
        (variableValues config.VariableName).getD config.VariableName := by
      unfold Run.text
      cases variableValues config.VariableName <;> rfl
    unfold Run.field
    rw [place_snd, ht]
    exact GetFirstNonOverflowingText_layouts _ _ _ _ _ _
  · intro hk hn
    unfold Run.text
    rw [hk, hn]

/-! ## Successive font loads -/

theorem LoadFont_ok_cached (lib : Lib) (path : List String) (w w1 : World) (font : Font)
    (h : LoadFont lib path w = (.ok font, w1)) :
    w1.loadedFonts.lookup (LoadFont.fontPath path) = some font := by
  obtain ⟨h1, h2⟩ := LoadFont_cases lib path w
  rcases h1 with hc | ⟨f, hf, e⟩
  · rcases h2 hc with ⟨-, e⟩ | ⟨f, -, e⟩
    · rw [e] at h; simp at h
    · rw [e] at h
      simp only [Prod.mk.injEq, Except.ok.injEq] at h
      rw [← h.2, ← h.1]
      simp [List.lookup]
  · rw [e] at h
    simp only [Prod.mk.injEq, Except.ok.injEq] at h
    rw [← h.2, ← h.1, hf]

theorem LoadFont_other_paths (lib : Lib) (path : List String) (w : World) (q : String)
    (hq : q ≠ LoadFont.fontPath path) :
    (LoadFont lib path w).2.loadedFonts.lookup q = w.loadedFonts.lookup q := by
  obtain ⟨h1, h2⟩ := LoadFont_cases lib path w
  rcases h1 with hc | ⟨f, -, e⟩
  · rcases h2 hc with ⟨-, e⟩ | ⟨f, -, e⟩
    · rw [e]; simp only; rw [warn_loadedFonts]
    · rw [e]
      simp only [List.lookup]
      have : (q == LoadFont.fontPath path) = false := by simpa using hq
      rw [this, warn_loadedFonts]
  · rw [e, warn_loadedFonts]

/-- Every path read so far is read once and is in the cache: kept by a
successful call. -/
theorem LoadFont_reads_inv (lib : Lib) (path : List String) (w w1 : World) (font : Font)
    (h : LoadFont lib path w = (.ok font, w1))
    (hinv : w.fontReads.Nodup ∧ ∀ p ∈ w.fontReads, (w.loadedFonts.lookup p).isSome) :
    w1.fontReads.Nodup ∧ ∀ p ∈ w1.fontReads, (w1.loadedFonts.lookup p).isSome := by
  obtain ⟨h1, h2⟩ := LoadFont_cases lib path w
  rcases h1 with hc | ⟨f, -, e⟩
  · rcases h2 hc with ⟨-, e⟩ | ⟨f, -, e⟩
    · rw [e] at h; simp at h
    · rw [e] at h
      simp only [Prod.mk.injEq, Except.ok.injEq] at h
      rw [← h.2]
      simp only [warn_fontReads, warn_loadedFonts] at hc ⊢
      have hnot : LoadFont.fontPath path ∉ w.fontReads := by
        intro hm
        have := hinv.2 _ hm
        rw [hc] at this
        simp at this
      constructor
      · rw [List.nodup_append]
        refine ⟨hinv.1, List.nodup_singleton _, ?_⟩
        intro a ha hb
        rw [List.mem_singleton] at hb
        exact hnot (hb ▸ ha)
      · intro p hp
        rw [List.mem_append, List.mem_singleton] at hp
        by_cases hpe : p = LoadFont.fontPath path
        · rw [hpe]; simp [List.lookup]
        · have hb : (p == LoadFont.fontPath path) = false := by simpa using hpe
          simp only [List.lookup, hb]
          rcases hp with hp | hp
          · exact hinv.2 p hp
          · exact absurd hp hpe
  · rw [e] at h
    simp only [Prod.mk.injEq, Except.ok.injEq] at h
    rw [← h.2, warn_fontReads, warn_loadedFonts]
    exact hinv

theorem calls_reads_inv (lib : Lib) :
    ∀ (calls : List (List String)) (w w1 : World), LoadFont.calls lib calls w = some w1 →
      (w.fontReads.Nodup ∧ ∀ p ∈ w.fontReads, (w.loadedFonts.lookup p).isSome) →
      w1.fontReads.Nodup ∧ ∀ p ∈ w1.fontReads, (w1.loadedFonts.lookup p).isSome := by
  intro calls
  induction calls with
  | nil =>
    intro w w1 h hinv
    simp only [LoadFont.calls, Option.some.injEq] at h
    rw [← h]; exact hinv
  | cons path rest ih =>
    intro w w1 h hinv
    rw [LoadFont.calls] at h
    rcases hL : LoadFont lib path w with ⟨r, w2⟩
    rw [hL] at h
    cases r with
    | error e => simp at h
    | ok f => exact ih w2 w1 h (LoadFont_reads_inv lib path w w2 f hL hinv)

/-- C8: after a successful `LoadFont`, a second call with the same path returns
the same handle, reads no font file and leaves the cache as it is; the entries
of the other paths are those of before the first call; and over any run of
successful calls from the start of the process, each path is read at most
once. -/
theorem LoadFont_same_path_twice (lib : Lib) (path : List String) (w w1 : World)
    (font : Font) (h : LoadFont lib path w = (.ok font, w1)) :
    (LoadFont lib path w1).1 = .ok font ∧
    (LoadFont lib path w1).2.fontReads = w1.fontReads ∧
    (LoadFont lib path w1).2.loadedFonts = w1.loadedFonts ∧
    (∀ q, q ≠ LoadFont.fontPath path →
      w1.loadedFonts.lookup q = w.loadedFonts.lookup q) ∧
    (∀ calls w', LoadFont.calls lib calls World.init = some w' →
      ∀ p, w'.fontReads.count p ≤ 1) := by
  have hc := LoadFont_ok_cached lib path w w1 font h
  have h2 : LoadFont lib path w1 = (.ok font, LoadFont.warn path w1) := by
    obtain ⟨h1, -⟩ := LoadFont_cases lib path w1
    rw [warn_loadedFonts, hc] at h1
    rcases h1 with h1 | ⟨f, hf, e⟩
    · simp at h1
    · rw [Option.some.injEq] at hf
      rw [e, hf]
  refine ⟨by rw [h2], by rw [h2, warn_fontReads], by rw [h2, warn_loadedFonts], ?_, ?_⟩
  · intro q hq
    have := LoadFont_other_paths lib path w q hq
    rw [h] at this
    exact this
  · intro calls w' hcalls p
    have := calls_reads_inv lib calls World.init w' hcalls
      ⟨List.nodup_nil, by intro p hp; simp [World.init] at hp⟩
    exact List.nodup_iff_count_le_one.mp this.1 p

/-- C8 at a concrete input: `LoadFont("a.ttf")` twice from the start of the
process returns the same handle, with one read of the file. -/
theorem LoadFont_same_path_twice_witness :
    LoadFont sampleLib ["a.ttf"] World.init =
      (.ok ⟨1⟩, ⟨[("a.ttf", ⟨1⟩)], ["a.ttf"], [], [], []⟩) ∧
    (LoadFont sampleLib ["a.ttf"] ⟨[("a.ttf", ⟨1⟩)], ["a.ttf"], [], [], []⟩).1 = .ok ⟨1⟩ ∧
    (LoadFont sampleLib ["a.ttf"] ⟨[("a.ttf", ⟨1⟩)], ["a.ttf"], [], [], []⟩).2.fontReads =
      ["a.ttf"] :=
  ⟨rfl,
    (LoadFont_same_path_twice sampleLib ["a.ttf"] World.init
      ⟨[("a.ttf", ⟨1⟩)], ["a.ttf"], [], [], []⟩ ⟨1⟩ rfl).1,
    (LoadFont_same_path_twice sampleLib ["a.ttf"] World.init
      ⟨[("a.ttf", ⟨1⟩)], ["a.ttf"], [], [], []⟩ ⟨1⟩ rfl).2.1⟩

end ImageGen
